import Mathlib

/-! Shallow embedding of the dialogue plugin in `src/lib.rs`: the dialogue
queue, the admission gate (`check_queue`), the session runner
(`update_runner`), the run criteria, and the placeholder-substitution
function (`substitute`).  External collaborators are modelled as plain data:
the virtual machine's `continue_dialogue` yields the next element of a
pending suspend-reason trace, `Assets<T>` is a partial map from handle ids
(a `HashMap` keyed by handle id), and the host's stage schedule is the
documented fixed order First, PreUpdate, Update, PostUpdate, Last.
A Rust `panic!` (and an out-of-bounds `unwrap`) is modelled as `none`. -/

/-- A row of the yarn string table (`LineInfo`): only the fields the runner
consults, an id and the line text. -/
structure LineInfo where
  id : String
  text : String
  deriving DecidableEq

/-- A line value carried by a `Line` suspend: the line id and the ordered
substitution values. -/
structure YarnLine where
  id : String
  substitutions : List String
  deriving DecidableEq

/-- An entry of an `Options` suspend; the runner only reads `opt.line.id`. -/
structure YarnOption where
  line : YarnLine
  deriving DecidableEq

/-- The suspend reasons surfaced by the interpreter's advance operation. -/
inductive SuspendReason where
  | line (l : YarnLine)
  | options (opts : List YarnOption)
  | command (commandText : String)
  | nodeChange (startName : String) (stopName : String)
  | dialogueComplete (lastNode : String)
  deriving DecidableEq

/-- A compiled program; the runner only consults the node-name table
(`program.nodes.contains_key`). -/
structure Program where
  name : String
  nodes : List String
  deriving DecidableEq

/-- The opaque virtual machine: the bound program, the current node, whether
the execution state is `WaitingOnOptionSelection`, and the trace of suspend
reasons its advance operation will yield, in order. -/
structure VirtualMachine where
  program : Program
  currentNode : String
  executionWaiting : Bool
  pending : List SuspendReason
  deriving DecidableEq

/-- The virtual machine's `set_node`: records the requested node. -/
def setNode (vm : VirtualMachine) (n : String) : VirtualMachine :=
  { vm with currentNode := n }

/-- The virtual machine's `continue_dialogue`: one advance, yielding the next
pending suspend reason (an exhausted trace reports completion). -/
def continueDialogue (vm : VirtualMachine) : SuspendReason × VirtualMachine :=
  match vm.pending with
  | [] => (SuspendReason.dialogueComplete vm.currentNode, vm)
  | r :: rs => (r, { vm with pending := rs })

/-- The `YarnProgram` asset: a wrapper around a compiled program. -/
structure YarnProgram where
  prog : Program
  deriving DecidableEq

/-- The `YarnStringTable` asset: a wrapper around a list of line records. -/
structure YarnStringTable where
  lines : List LineInfo
  deriving DecidableEq

/-- A queue entry (`DialogueQueueEntry`): source path, the two asset handles
(modelled by their ids), and the optional start node. -/
structure DialogueQueueEntry where
  path : String
  program : Nat
  table : Nat
  start_node : Option String
  deriving DecidableEq

/-- The `Running` payload (`DialogueRunningCurrentEntry`). -/
inductive DialogueRunningCurrentEntry where
  | null
  | text (t : String)
  | options (l : List String)
  deriving DecidableEq

/-- The runner state (`DialogueRunnerState`). -/
inductive DialogueRunnerState where
  | idle
  | running (e : DialogueRunningCurrentEntry)
  deriving DecidableEq

/-- The hand-written `PartialEq` on `DialogueRunnerState`: it compares only
the `Idle`/`Running` tag and ignores the `Running` payload. -/
def runnerStateBeq : DialogueRunnerState → DialogueRunnerState → Bool
  | DialogueRunnerState.idle, DialogueRunnerState.idle => true
  | DialogueRunnerState.idle, DialogueRunnerState.running _ => false
  | DialogueRunnerState.running _, DialogueRunnerState.idle => false
  | DialogueRunnerState.running _, DialogueRunnerState.running _ => true

/-- The `DialogueRunner` resource. -/
structure DialogueRunner where
  vm : VirtualMachine
  table : List LineInfo
  state : DialogueRunnerState
  deriving DecidableEq

/-- The runner's `setup`: default the start node to "Start", bind the
program and table, set the node when the program contains it, and enter
`Running(Null)`. -/
def DialogueRunner.setup (r : DialogueRunner) (program : YarnProgram)
    (table : YarnStringTable) (start_node : Option String) : DialogueRunner :=
  let sn := start_node.getD "Start"
  let vm1 := { r.vm with program := program.prog }
  let vm2 := if vm1.program.nodes.contains sn then setNode vm1 sn else vm1
  { vm := vm2, table := table.lines, state := DialogueRunnerState.running DialogueRunningCurrentEntry.null }

/-- An asset collection (`Assets<T>`): a partial map from handle ids. -/
def AssetMap (A : Type) : Type := Nat → Option A

/-- The collection's `get`: look the handle up. -/
def assetGet {A : Type} (m : AssetMap A) (k : Nat) : Option A := m k

/-- The collection's `remove`: return the stored asset, erasing the key. -/
def assetRemove {A : Type} (m : AssetMap A) (k : Nat) : Option A × AssetMap A :=
  (m k, fun k' => if k' = k then none else m k')

/-- The world state the two systems touch: the dialogue queue, the two asset
collections, the runner, the count of `EventDialogueUpdated` sent, and the
deferred `ExecuteDialogueCommand`s queued via `commands.add`. -/
structure SysState where
  queue : List DialogueQueueEntry
  programs : AssetMap YarnProgram
  tables : AssetMap YarnStringTable
  runner : DialogueRunner
  events : Nat
  dispatches : List (String × List String)

/-- The admission gate (`check_queue`): when the runner is idle and the queue
is non-empty, inspect the head entry; when both of its assets are present,
pop it, remove both assets from their collections and set the runner up. -/
def check_queue (s : SysState) : SysState :=
  if runnerStateBeq s.runner.state DialogueRunnerState.idle && !s.queue.isEmpty then
    match s.queue with
    | [] => s
    | e :: rest =>
      if (assetGet s.programs e.program).isSome && (assetGet s.tables e.table).isSome then
        match assetRemove s.programs e.program with
        | (some program, programs') =>
          match assetRemove s.tables e.table with
          | (some table, tables') =>
            { s with queue := rest, programs := programs', tables := tables',
                     runner := s.runner.setup program table e.start_node }
          | (none, tables') =>
            { s with queue := rest, programs := programs', tables := tables' }
        | (none, programs') => { s with queue := rest, programs := programs' }
      else s
  else s

/-- Rust `str::split(" ")`: split on every single space, keeping empty
fields; the result is never empty. -/
def commandSplit (l : List Char) : List (List Char) :=
  l.foldr (fun c acc =>
    if c = ' ' then [] :: acc
    else
      match acc with
      | [] => [[c]]
      | a :: rest => (c :: a) :: rest) [[]]

/-- The nom `take_until "\x7b"` step of the marker parser: split the input at
the first opening brace, failing when there is none.  Returns the text
before the brace and the suffix starting at the brace. -/
def splitAtBrace : List Char → Option (List Char × List Char)
  | [] => none
  | c :: cs =>
    if c = '{' then some ([], c :: cs)
    else (splitAtBrace cs).map (fun p => (c :: p.1, p.2))

/-- Character class of the nom `is_not "\x7d"` step: any character other
than a closing brace. -/
def notCloseBrace (d : Char) : Bool := d ≠ '}'

/-- One application of the nom parser in `substitute`:
`pair(take_until("\x7b"), delimited(char('\x7b'), is_not("\x7d"), char('\x7d')))`.
Returns (remaining input, (text before the marker, marker content)); the
content must be non-empty because `is_not` fails on an empty match. -/
def yarnMarkerParse (input : List Char) : Option (List Char × (List Char × List Char)) :=
  match splitAtBrace input with
  | none => none
  | some (before, afterBrace) =>
    match afterBrace with
    | [] => none
    | c :: rest1 =>
      if c = '{' then
        let content := rest1.takeWhile notCloseBrace
        let rest2 := rest1.dropWhile notCloseBrace
        if content.isEmpty then none
        else
          match rest2 with
          | [] => none
          | d :: rest3 => if d = '}' then some (rest3, (before, content)) else none
      else none

/-- The loop of `substitute`, with fuel bounding the number of parser
applications (each successful parse strictly shrinks the input, so
`input.length + 1` fuel always suffices).  A failed parse appends the
remainder and stops; a successful parse appends the text before the marker
and the idx-th substitution value — a missing value is the fatal
`unwrap` panic, modelled as `none`. -/
def substGoF : Nat → List Char → List String → Nat → Option (List Char)
  | 0, _, _, _ => none
  | fuel + 1, input, subs, idx =>
    match yarnMarkerParse input with
    | none => some input
    | some (remaining, (first, _)) =>
      match subs.get? idx with
      | none => none
      | some v => (substGoF fuel remaining subs (idx + 1)).map (fun t => first ++ v.data ++ t)

/-- The `substitute` function of the source, on character lists: when the
very first parse fails the input is returned unchanged, otherwise the loop
runs from index 0. -/
def substitute (input : List Char) (subs : List String) : Option (List Char) :=
  substGoF (input.length + 1) input subs 0

/-- String-typed wrapper of `substitute`. -/
def substituteS (input : String) (subs : List String) : Option String :=
  (substitute input.data subs).map (fun l => String.mk l)

/-- The number of markers `substitute`'s loop would consume: the number of
successful parser applications, with the same fuel discipline. -/
def countMarkersF : Nat → List Char → Nat
  | 0, _ => 0
  | fuel + 1, input =>
    match yarnMarkerParse input with
    | none => 0
    | some (remaining, _) => countMarkersF fuel remaining + 1

/-- Marker count of a template. -/
def countMarkers (input : List Char) : Nat := countMarkersF (input.length + 1) input

/-- The option-resolution loop of the `Options` branch: push the table text
of each option whose line id resolves, keeping nothing for a miss. -/
def optionLineTexts (table : List LineInfo) (opts : List YarnOption) : List String :=
  opts.foldl (fun acc opt =>
    match (table.find? (fun li => li.id == opt.line.id)).map (fun li => li.text) with
    | some t => acc ++ [t]
    | none => acc) []

/-- The body of `update_runner` after one advance, dispatching on the suspend
reason exactly as the source `match` does.  `none` models the
`panic!("Error! unable to find line!")` of the `Line` branch and the
out-of-bounds substitution `unwrap`. -/
def runnerReasonStep (s : SysState) (reason : SuspendReason) : Option SysState :=
  match reason with
  | SuspendReason.line l =>
    match (s.runner.table.find? (fun li => li.id == l.id)).map (fun li => li.text) with
    | some newText =>
      match substituteS newText l.substitutions with
      | some subs =>
        some { s with events := s.events + 1,
                      runner := { s.runner with
                        state := DialogueRunnerState.running (DialogueRunningCurrentEntry.text subs) } }
      | none => none
    | none => none
  | SuspendReason.options opts =>
    some { s with events := s.events + 1,
                  runner := { s.runner with
                    state := DialogueRunnerState.running
                      (DialogueRunningCurrentEntry.options (optionLineTexts s.runner.table opts)) } }
  | SuspendReason.command commandText =>
    match commandSplit commandText.data with
    | [] => some { s with runner := { s.runner with
                    state := DialogueRunnerState.running DialogueRunningCurrentEntry.null } }
    | nameChars :: argChars =>
      some { s with
        dispatches := s.dispatches ++ [(String.mk nameChars, argChars.map (fun a => String.mk a))],
        runner := { s.runner with
          state := DialogueRunnerState.running DialogueRunningCurrentEntry.null } }
  | SuspendReason.nodeChange _ _ =>
    some { s with runner := { s.runner with
      state := DialogueRunnerState.running DialogueRunningCurrentEntry.null } }
  | SuspendReason.dialogueComplete _ =>
    match s.queue with
    | [] => some { s with runner := { s.runner with state := DialogueRunnerState.idle } }
    | e :: rest =>
      let s1 := { s with queue := rest }
      if (assetGet s1.programs e.program).isSome && (assetGet s1.tables e.table).isSome then
        match assetRemove s1.programs e.program with
        | (some program, programs') =>
          match assetRemove s1.tables e.table with
          | (some table, tables') =>
            some { s1 with programs := programs', tables := tables',
                           runner := s1.runner.setup program table e.start_node }
          | (none, tables') => some { s1 with programs := programs', tables := tables' }
        | (none, programs') => some { s1 with programs := programs' }
      else some { s1 with runner := { s1.runner with state := DialogueRunnerState.idle } }

/-- The runner system (`update_runner`): nothing when idle, an early return
when the interpreter waits on an option selection, otherwise exactly one
advance followed by the dispatch on its suspend reason. -/
def update_runner (s : SysState) : Option SysState :=
  match s.runner.state with
  | DialogueRunnerState.idle => some s
  | DialogueRunnerState.running _ =>
    if s.runner.vm.executionWaiting then some s
    else
      let p := continueDialogue s.runner.vm
      runnerReasonStep { s with runner := { s.runner with vm := p.2 } } p.1

/-- Run criteria outcome. -/
inductive ShouldRun where
  | yes
  | no
  deriving DecidableEq

/-- The source's `run_if_no_dialogue_hold`: the system runs exactly when the
`DialogueHold` resource is absent. -/
def run_if_no_dialogue_hold (hold : Option Unit) : ShouldRun :=
  match hold with
  | some _ => ShouldRun.no
  | none => ShouldRun.yes

/-- The runner system together with its run criteria: skipped entirely while
the hold resource exists. -/
def update_runner_system (hold : Option Unit) (s : SysState) : Option SysState :=
  match run_if_no_dialogue_hold hold with
  | ShouldRun.yes => update_runner s
  | ShouldRun.no => some s

/-- The host's core stages, in their documented fixed execution order. -/
inductive CoreStage where
  | first
  | preUpdate
  | update
  | postUpdate
  | last
  deriving DecidableEq

/-- Position of a stage in the per-tick execution order. -/
def stageIndex : CoreStage → Nat
  | CoreStage.first => 0
  | CoreStage.preUpdate => 1
  | CoreStage.update => 2
  | CoreStage.postUpdate => 3
  | CoreStage.last => 4

/-- The stage `check_queue` is registered to in `DialoguePlugin::build`. -/
def checkQueueStage : CoreStage := CoreStage.postUpdate

/-- The stage `update_runner` is registered to in `DialoguePlugin::build`. -/
def updateRunnerStage : CoreStage := CoreStage.preUpdate

/-- One full tick in the registered stage order: the runner system (with its
hold criteria) in PreUpdate, then the admission gate in PostUpdate. -/
def bevyTick (hold : Option Unit) (s : SysState) : Option SysState :=
  (update_runner_system hold s).map check_queue

/-- Repeated admission-gate ticks: each tick the external loader may have
replaced the asset collections arbitrarily, then `check_queue` runs. -/
def gateRun : SysState → List (AssetMap YarnProgram × AssetMap YarnStringTable) → SysState
  | s, [] => s
  | s, env :: rest => gateRun (check_queue { s with programs := env.1, tables := env.2 }) rest

/-- One system step of the plugin: the admission gate or the runner system. -/
def sysStep (isGate : Bool) (s : SysState) : Option SysState :=
  if isGate then some (check_queue s) else update_runner s

/-- Any interleaving of the plugin's two systems. -/
def runSteps : List Bool → SysState → Option SysState
  | [], s => some s
  | b :: bs, s => (sysStep b s).bind (runSteps bs)

/-- Spec-side decomposition of a template: a list of (plain text, marker
content) pairs followed by a trailing text, reassembled with braces around
each marker. -/
def assembleT : List (List Char × List Char) → List Char → List Char
  | [], tn => tn
  | (t, m) :: ps, tn => t ++ '{' :: (m ++ '}' :: assembleT ps tn)

/-- Spec-side rendering, following the specification's words: the k-th
marker encountered (0-indexed) is replaced by the k-th substitution value,
and text outside markers is preserved verbatim. -/
def renderWith (subs : List String) : Nat → List (List Char × List Char) → List Char
  | _, [] => []
  | k, (t, _) :: ps => t ++ ((subs.get? k).getD "").data ++ renderWith subs (k + 1) ps

/-- An empty compiled program, for concrete test states. -/
def emptyProgram : Program := { name := "", nodes := [] }

/-- A virtual machine with the given pending suspend trace. -/
def mkVM (pending : List SuspendReason) : VirtualMachine :=
  { program := emptyProgram, currentNode := "Start", executionWaiting := false, pending := pending }

/-- A system state with empty queue, no loaded assets and an idle runner. -/
def baseState : SysState :=
  { queue := [], programs := fun _ => none, tables := fun _ => none,
    runner := { vm := mkVM [], table := [], state := DialogueRunnerState.idle },
    events := 0, dispatches := [] }

/-- A system state with a running session over the given table and pending
suspend trace. -/
def runningState (table : List LineInfo) (pending : List SuspendReason) : SysState :=
  { queue := [], programs := fun _ => none, tables := fun _ => none,
    runner := { vm := mkVM pending, table := table,
                state := DialogueRunnerState.running DialogueRunningCurrentEntry.null },
    events := 0, dispatches := [] }

/-- A running system state with an explicit current-entry substate. -/
def runningStateAt (st : DialogueRunningCurrentEntry) (table : List LineInfo)
    (pending : List SuspendReason) : SysState :=
  { queue := [], programs := fun _ => none, tables := fun _ => none,
    runner := { vm := mkVM pending, table := table,
                state := DialogueRunnerState.running st },
    events := 0, dispatches := [] }

/-- A virtual machine stuck in `WaitingOnOptionSelection`. -/
def waitingVM : VirtualMachine :=
  { program := emptyProgram, currentNode := "Start", executionWaiting := true, pending := [] }

/-- A running system state whose interpreter waits on an option selection. -/
def waitingState : SysState :=
  { queue := [], programs := fun _ => none, tables := fun _ => none,
    runner := { vm := waitingVM, table := [],
                state := DialogueRunnerState.running DialogueRunningCurrentEntry.null },
    events := 0, dispatches := [] }

/-- A sample loaded program asset. -/
def sampleProgram : YarnProgram := { prog := { name := "p", nodes := ["Start"] } }

/-- A sample loaded string-table asset. -/
def sampleTable : YarnStringTable := { lines := [{ id := "line1", text := "Hi" }] }

/-- A sample queue entry whose two handles are id 1. -/
def sampleEntry : DialogueQueueEntry :=
  { path := "a.yarnc", program := 1, table := 1, start_node := none }

/-- A second sample queue entry whose two handles are id 2. -/
def entryB : DialogueQueueEntry :=
  { path := "b.yarnc", program := 2, table := 2, start_node := none }

/-- An idle state whose queue head has both assets loaded at handle id 1. -/
def readyIdleState : SysState :=
  { queue := [sampleEntry],
    programs := fun k => if k = 1 then some sampleProgram else none,
    tables := fun k => if k = 1 then some sampleTable else none,
    runner := { vm := mkVM [], table := [], state := DialogueRunnerState.idle },
    events := 0, dispatches := [] }

/-! Helper lemmas for the substitution engine. -/

theorem splitAtBrace_eq_some : ∀ {input b r : List Char},
    splitAtBrace input = some (b, r) → input = b ++ r := by
  intro input
  induction input with
  | nil => intro b r h; simp [splitAtBrace] at h
  | cons c cs ih =>
    intro b r h
    by_cases hc : c = '{'
    · simp only [splitAtBrace, if_pos hc, Option.some.injEq] at h
      cases h
      simp
    · simp only [splitAtBrace, if_neg hc] at h
      cases hcs : splitAtBrace cs with
      | none => rw [hcs] at h; simp at h
      | some p =>
        obtain ⟨p1, p2⟩ := p
        rw [hcs] at h
        simp only [Option.map_some', Option.some.injEq] at h
        cases h
        simp [ih hcs]

theorem splitAtBrace_of_append {t : List Char} (r : List Char) (ht : '{' ∉ t) :
    splitAtBrace (t ++ '{' :: r) = some (t, '{' :: r) := by
  induction t with
  | nil => simp [splitAtBrace]
  | cons c cs ih =>
    have hc : c ≠ '{' := fun h => ht (by simp [h])
    have hcs : '{' ∉ cs := fun h => ht (by simp [h])
    simp [List.cons_append, splitAtBrace, hc, ih hcs]

theorem takeWhile_marker {m : List Char} (rest : List Char) (hm : '}' ∉ m) :
    (m ++ '}' :: rest).takeWhile notCloseBrace = m := by
  induction m with
  | nil => simp [List.takeWhile_cons, notCloseBrace]
  | cons c cs ih =>
    have hc : c ≠ '}' := fun h => hm (by simp [h])
    have hcs : '}' ∉ cs := fun h => hm (by simp [h])
    simp [List.takeWhile_cons, notCloseBrace, hc, ih hcs]

theorem dropWhile_marker {m : List Char} (rest : List Char) (hm : '}' ∉ m) :
    (m ++ '}' :: rest).dropWhile notCloseBrace = '}' :: rest := by
  induction m with
  | nil => simp [List.dropWhile_cons, notCloseBrace]
  | cons c cs ih =>
    have hc : c ≠ '}' := fun h => hm (by simp [h])
    have hcs : '}' ∉ cs := fun h => hm (by simp [h])
    simp [List.dropWhile_cons, notCloseBrace, hc, ih hcs]

theorem yarnMarkerParse_assembled {t m : List Char} (rest : List Char)
    (ht : '{' ∉ t) (hm1 : m ≠ []) (hm2 : '}' ∉ m) :
    yarnMarkerParse (t ++ '{' :: (m ++ '}' :: rest)) = some (rest, (t, m)) := by
  have hm1' : m.isEmpty = false := by
    cases m with
    | nil => exact absurd rfl hm1
    | cons a l => rfl
  rw [yarnMarkerParse, splitAtBrace_of_append (m ++ '}' :: rest) ht]
  simp [takeWhile_marker rest hm2, dropWhile_marker rest hm2, hm1']

theorem yarnMarkerParse_length : ∀ {input rem : List Char} {pr : List Char × List Char},
    yarnMarkerParse input = some (rem, pr) → rem.length < input.length := by
  intro input rem pr h
  rw [yarnMarkerParse] at h
  cases hs : splitAtBrace input with
  | none => rw [hs] at h; simp at h
  | some p =>
    obtain ⟨b, r⟩ := p
    rw [hs] at h
    have hbr := splitAtBrace_eq_some hs
    cases r with
    | nil => simp at h
    | cons c rest1 =>
      by_cases hc : c = '{'
      · simp only [if_pos hc] at h
        by_cases hemp : (rest1.takeWhile notCloseBrace).isEmpty = true
        · simp [hemp] at h
        · rw [Bool.not_eq_true] at hemp
          simp only [hemp, Bool.false_eq_true, if_false] at h
          cases hd : rest1.dropWhile notCloseBrace with
          | nil => rw [hd] at h; simp at h
          | cons d rest3 =>
            rw [hd] at h
            by_cases hdc : d = '}'
            · simp only [hdc, reduceIte, Option.some.injEq, Prod.mk.injEq] at h
              obtain ⟨hrem, -⟩ := h
              rw [← hrem]
              have h1 : rest1.length = (rest1.takeWhile notCloseBrace).length + (d :: rest3).length := by
                conv_lhs => rw [← List.takeWhile_append_dropWhile (p := notCloseBrace) (l := rest1)]
                rw [hd, List.length_append]
              have h2 : input.length = b.length + 1 + rest1.length := by
                rw [hbr]; simp; omega
              simp only [List.length_cons] at h1
              omega
            · simp [hdc] at h
      · simp [hc] at h

theorem substGoF_assembled (subs : List String) :
    ∀ (ps : List (List Char × List Char)) (tn : List Char) (idx fuel : Nat),
      (∀ p ∈ ps, '{' ∉ p.1 ∧ p.2 ≠ [] ∧ '}' ∉ p.2) →
      yarnMarkerParse tn = none →
      idx + ps.length ≤ subs.length →
      (assembleT ps tn).length < fuel →
      substGoF fuel (assembleT ps tn) subs idx = some (renderWith subs idx ps ++ tn) := by
  intro ps
  induction ps with
  | nil =>
    intro tn idx fuel _ htn _ hfuel
    cases fuel with
    | zero => simp [assembleT] at hfuel
    | succ f => simp [assembleT, substGoF, htn, renderWith]
  | cons p ps ih =>
    intro tn idx fuel hps htn hlen hfuel
    obtain ⟨t, m⟩ := p
    have hp := hps (t, m) (by simp)
    have hrest : ∀ q ∈ ps, '{' ∉ q.1 ∧ q.2 ≠ [] ∧ '}' ∉ q.2 := fun q hq => hps q (by simp [hq])
    cases fuel with
    | zero => simp at hfuel
    | succ f =>
      have hparse : yarnMarkerParse (assembleT ((t, m) :: ps) tn) =
          some (assembleT ps tn, (t, m)) := by
        rw [assembleT]
        exact yarnMarkerParse_assembled (assembleT ps tn) hp.1 hp.2.1 hp.2.2
      have hidx : idx < subs.length := by
        simp only [List.length_cons] at hlen
        omega
      obtain ⟨v, hv⟩ : ∃ v, subs.get? idx = some v := ⟨subs.get ⟨idx, hidx⟩, List.get?_eq_get hidx⟩
      have hflen : (assembleT ps tn).length < f := by
        have : (assembleT ((t, m) :: ps) tn).length =
            t.length + 1 + m.length + 1 + (assembleT ps tn).length := by
          rw [assembleT]
          simp
          omega
        simp only [this] at hfuel
        omega
      have hrec := ih tn (idx + 1) f hrest htn (by simp only [List.length_cons] at hlen; omega) hflen
      rw [substGoF, hparse]
      simp only [hv, hrec, Option.map_some']
      have hv2 : subs[idx]? = some v := by simpa [List.get?_eq_getElem?] using hv
      simp [renderWith, hv2]

/-- C8 core equality: on a template decomposed into plain texts and markers,
`substitute` replaces the k-th marker with the k-th value and keeps plain
text verbatim. -/
theorem substitute_assembled (ps : List (List Char × List Char)) (tn : List Char)
    (subs : List String)
    (hps : ∀ p ∈ ps, '{' ∉ p.1 ∧ p.2 ≠ [] ∧ '}' ∉ p.2)
    (htn : yarnMarkerParse tn = none)
    (hlen : ps.length ≤ subs.length) :
    substitute (assembleT ps tn) subs = some (renderWith subs 0 ps ++ tn) := by
  exact substGoF_assembled subs ps tn 0 ((assembleT ps tn).length + 1) hps htn
    (by omega) (by omega)

theorem substGoF_isSome_iff (subs : List String) :
    ∀ (fuel : Nat) (input : List Char) (idx : Nat), input.length < fuel →
      ((substGoF fuel input subs idx).isSome ↔
        (idx + countMarkersF fuel input ≤ subs.length ∨ countMarkersF fuel input = 0)) := by
  intro fuel
  induction fuel with
  | zero => intro input idx h; omega
  | succ f ih =>
    intro input idx hlen
    cases hp : yarnMarkerParse input with
    | none => simp [substGoF, countMarkersF, hp]
    | some pr =>
      obtain ⟨rem, first, marker⟩ := pr
      have hremlen : rem.length < f := by
        have := yarnMarkerParse_length hp
        omega
      cases hv : subs.get? idx with
      | none =>
        have hidx : subs.length ≤ idx := by
          simpa [List.get?_eq_none] using hv
        simp only [substGoF, countMarkersF, hp, hv]
        simp
        omega
      | some v =>
        have hidx : idx < subs.length := by
          by_contra hcon
          rw [List.get?_eq_none.mpr (by omega)] at hv
          simp at hv
        have hrec := ih rem (idx + 1) hremlen
        simp only [substGoF, countMarkersF, hp, hv]
        have hmap : (Option.map (fun t => first ++ v.data ++ t) (substGoF f rem subs (idx + 1))).isSome
            = (substGoF f rem subs (idx + 1)).isSome := by
          cases substGoF f rem subs (idx + 1) <;> rfl
        rw [hmap, hrec]
        constructor
        · rintro (hle | hzero)
          · left; omega
          · left; omega
        · rintro (hle | hzero)
          · left; omega
          · omega

/-- Claim C8: for every template decomposed into plain texts (no opening
brace before the last segment) and non-empty, close-brace-free markers, and
every substitution list supplying at least as many values as there are
markers, `substitute` replaces the k-th marker encountered left to right
(0-indexed) with the k-th substitution value and preserves all text outside
markers verbatim; a template without a parsable marker is returned
unchanged. -/
theorem c8_substitute_spec (ps : List (List Char × List Char)) (tn : List Char)
    (subs : List String)
    (hps : ∀ p ∈ ps, '{' ∉ p.1 ∧ p.2 ≠ [] ∧ '}' ∉ p.2)
    (htn : yarnMarkerParse tn = none)
    (hlen : ps.length ≤ subs.length) :
    substitute (assembleT ps tn) subs = some (renderWith subs 0 ps ++ tn) ∧
    substitute tn subs = some tn := by
  constructor
  · exact substitute_assembled ps tn subs hps htn hlen
  · unfold substitute
    cases hn : tn.length + 1 with
    | zero => omega
    | succ f => rw [← hn]; simp [substGoF, htn]

/-- Claim C8 witness: the two concrete examples of the specification. -/
theorem c8_substitute_spec_witness :
    substitute "Hello {0}, you have {1} items".data ["Ann", "3"]
      = some "Hello Ann, you have 3 items".data ∧
    substitute "no markers".data [] = some "no markers".data := by
  constructor
  · have h := (c8_substitute_spec [("Hello ".data, "0".data), (", you have ".data, "1".data)]
      " items".data ["Ann", "3"] (by decide) (by decide) (by decide)).1
    have e1 : assembleT [("Hello ".data, "0".data), (", you have ".data, "1".data)] " items".data
        = "Hello {0}, you have {1} items".data := by decide
    have e2 : renderWith ["Ann", "3"] 0 [("Hello ".data, "0".data), (", you have ".data, "1".data)]
        ++ " items".data = "Hello Ann, you have 3 items".data := by decide
    rw [e1, e2] at h
    exact h
  · exact (c8_substitute_spec [] "no markers".data [] (by simp) (by decide) (by simp)).2

/-- Claim C9: when the template holds more markers than there are supplied
substitution values, `substitute` hits the fatal indexing `unwrap` (modelled
as `none`); when the marker count is at most the value count, that error
branch is unreachable and the call produces output. -/
theorem c9_marker_count_safety (input : List Char) (subs : List String) :
    (subs.length < countMarkers input → substitute input subs = none) ∧
    (countMarkers input ≤ subs.length → (substitute input subs).isSome = true) := by
  have h := substGoF_isSome_iff subs (input.length + 1) input 0 (by omega)
  constructor
  · intro hlt
    have hlt' : subs.length < countMarkersF (input.length + 1) input := hlt
    have hnone : ¬(substGoF (input.length + 1) input subs 0).isSome = true := by
      rw [h]
      rintro (hle | hzero) <;> omega
    unfold substitute
    cases hres : substGoF (input.length + 1) input subs 0 with
    | none => rfl
    | some v => exact absurd (by rw [hres]; rfl) hnone
  · intro hle
    have hle' : countMarkersF (input.length + 1) input ≤ subs.length := hle
    exact h.mpr (Or.inl (by omega))

/-- Claim C9 witness: two markers with one supplied value is the fatal
indexing error; two markers with two values succeeds. -/
theorem c9_marker_count_safety_witness :
    (["Ann"].length < countMarkers "Hello {0}, you have {1} items".data ∧
      substitute "Hello {0}, you have {1} items".data ["Ann"] = none) ∧
    (countMarkers "Hello {0}, you have {1} items".data ≤ ["Ann", "3"].length ∧
      (substitute "Hello {0}, you have {1} items".data ["Ann", "3"]).isSome = true) :=
  ⟨⟨by decide,
    (c9_marker_count_safety "Hello {0}, you have {1} items".data ["Ann"]).1 (by decide)⟩,
   ⟨by decide,
    (c9_marker_count_safety "Hello {0}, you have {1} items".data ["Ann", "3"]).2 (by decide)⟩⟩

/-! Helper lemmas for the runner systems. -/

theorem setup_pending (r : DialogueRunner) (p : YarnProgram) (t : YarnStringTable)
    (sn : Option String) : (r.setup p t sn).vm.pending = r.vm.pending := by
  simp only [DialogueRunner.setup, setNode, apply_ite (f := VirtualMachine.pending)]
  simp

theorem setup_state (r : DialogueRunner) (p : YarnProgram) (t : YarnStringTable)
    (sn : Option String) :
    (r.setup p t sn).state = DialogueRunnerState.running DialogueRunningCurrentEntry.null := rfl

theorem setup_table (r : DialogueRunner) (p : YarnProgram) (t : YarnStringTable)
    (sn : Option String) : (r.setup p t sn).table = t.lines := rfl

theorem setup_program (r : DialogueRunner) (p : YarnProgram) (t : YarnStringTable)
    (sn : Option String) : (r.setup p t sn).vm.program = p.prog := by
  simp only [DialogueRunner.setup, setNode, apply_ite (f := VirtualMachine.program)]
  simp

theorem update_runner_of_idle (s : SysState)
    (h : s.runner.state = DialogueRunnerState.idle) : update_runner s = some s := by
  unfold update_runner
  rw [h]

theorem update_runner_of_waiting (s : SysState) (e : DialogueRunningCurrentEntry)
    (h : s.runner.state = DialogueRunnerState.running e)
    (hw : s.runner.vm.executionWaiting = true) : update_runner s = some s := by
  unfold update_runner
  rw [h, hw]
  rfl

theorem update_runner_advance (s : SysState) (e : DialogueRunningCurrentEntry)
    (r : SuspendReason) (rest : List SuspendReason)
    (h : s.runner.state = DialogueRunnerState.running e)
    (hw : s.runner.vm.executionWaiting = false)
    (hp : s.runner.vm.pending = r :: rest) :
    update_runner s =
      runnerReasonStep
        { s with runner := { s.runner with vm := { s.runner.vm with pending := rest } } } r := by
  unfold update_runner
  rw [h, hw]
  unfold continueDialogue
  rw [hp]
  rfl

theorem runnerReasonStep_pending : ∀ (s : SysState) (r : SuspendReason) (s' : SysState),
    runnerReasonStep s r = some s' → s'.runner.vm.pending = s.runner.vm.pending := by
  intro s r s' h
  cases r with
  | line l =>
    simp only [runnerReasonStep] at h
    split at h
    · split at h
      · injection h with h'
        rw [← h']
      · exact absurd h (by simp)
    · exact absurd h (by simp)
  | options opts =>
    simp only [runnerReasonStep] at h
    injection h with h'
    rw [← h']
  | command txt =>
    simp only [runnerReasonStep] at h
    split at h
    · injection h with h'
      rw [← h']
    · injection h with h'
      rw [← h']
  | nodeChange a b =>
    simp only [runnerReasonStep] at h
    injection h with h'
    rw [← h']
  | dialogueComplete n =>
    simp only [runnerReasonStep] at h
    split at h
    · injection h with h'
      rw [← h']
    · split at h
      · split at h
        · split at h
          · injection h with h'
            rw [← h']
            exact setup_pending ..
          · injection h with h'
            rw [← h']
        · injection h with h'
          rw [← h']
      · injection h with h'
        rw [← h']

/-- Claim C7: the per-tick runner step is a no-op while the hold resource is
present, a no-op when the runner is idle, and a no-op when the interpreter
waits on an option selection; in every other case it invokes the
interpreter's advance operation exactly once, consuming exactly one pending
suspend reason. -/
theorem c7_per_tick_shape (hold : Option Unit) (s : SysState) :
    (hold.isSome = true → update_runner_system hold s = some s) ∧
    (s.runner.state = DialogueRunnerState.idle → update_runner_system hold s = some s) ∧
    (s.runner.vm.executionWaiting = true → update_runner_system hold s = some s) ∧
    (∀ e r rest s', hold = none → s.runner.state = DialogueRunnerState.running e →
      s.runner.vm.executionWaiting = false → s.runner.vm.pending = r :: rest →
      update_runner_system hold s = some s' → s'.runner.vm.pending = rest) := by
  refine ⟨?_, ?_, ?_, ?_⟩
  · intro hh
    cases hold with
    | none => simp at hh
    | some u => rfl
  · intro hidle
    cases hold with
    | none => exact update_runner_of_idle s hidle
    | some u => rfl
  · intro hw
    cases hold with
    | some u => rfl
    | none =>
      cases hst : s.runner.state with
      | idle => exact update_runner_of_idle s hst
      | running e => exact update_runner_of_waiting s e hst hw
  · intro e r rest s' hh hst hw hp hs
    subst hh
    have hadv := update_runner_advance s e r rest hst hw hp
    have hs' : update_runner s = some s' := hs
    rw [hadv] at hs'
    have hpend := runnerReasonStep_pending _ r s' hs'
    rw [hpend]

/-- Claim C7 witness: the three no-op cases and one advancing case at
concrete states. -/
theorem c7_per_tick_shape_witness :
    ((some () : Option Unit).isSome = true ∧ update_runner_system (some ()) baseState = some baseState) ∧
    (baseState.runner.state = DialogueRunnerState.idle ∧
      update_runner_system none baseState = some baseState) ∧
    (waitingState.runner.vm.executionWaiting = true ∧
      update_runner_system none waitingState = some waitingState) ∧
    (∃ s', update_runner_system none (runningState [] [SuspendReason.nodeChange "x" "y"]) = some s' ∧
      s'.runner.vm.pending = []) := by
  refine ⟨⟨rfl, (c7_per_tick_shape (some ()) baseState).1 rfl⟩,
          ⟨rfl, (c7_per_tick_shape none baseState).2.1 rfl⟩,
          ⟨rfl, (c7_per_tick_shape none waitingState).2.2.1 rfl⟩, ?_⟩
  obtain ⟨s', hs⟩ : ∃ s',
      update_runner_system none (runningState [] [SuspendReason.nodeChange "x" "y"]) = some s' :=
    ⟨_, rfl⟩
  exact ⟨s', hs, (c7_per_tick_shape none (runningState [] [SuspendReason.nodeChange "x" "y"])).2.2.2
    DialogueRunningCurrentEntry.null (SuspendReason.nodeChange "x" "y") [] s' rfl rfl rfl rfl hs⟩

theorem runnerReasonStep_complete_empty (s : SysState) (n : String) (hq : s.queue = []) :
    runnerReasonStep s (SuspendReason.dialogueComplete n) =
      some { s with runner := { s.runner with state := DialogueRunnerState.idle } } := by
  simp only [runnerReasonStep, hq]

theorem runnerReasonStep_complete_ready (s : SysState) (n : String) (e0 : DialogueQueueEntry)
    (q : List DialogueQueueEntry) (prog : YarnProgram) (tbl : YarnStringTable)
    (hq : s.queue = e0 :: q) (hprog : s.programs e0.program = some prog)
    (htbl : s.tables e0.table = some tbl) :
    runnerReasonStep s (SuspendReason.dialogueComplete n) =
      some { s with queue := q,
                    programs := (assetRemove s.programs e0.program).2,
                    tables := (assetRemove s.tables e0.table).2,
                    runner := s.runner.setup prog tbl e0.start_node } := by
  simp only [runnerReasonStep, hq, assetGet, assetRemove, hprog, htbl]
  simp

theorem runnerReasonStep_complete_unready (s : SysState) (n : String)
    (e0 : DialogueQueueEntry) (q : List DialogueQueueEntry)
    (hq : s.queue = e0 :: q)
    (hnr : ((s.programs e0.program).isSome && (s.tables e0.table).isSome) = false) :
    runnerReasonStep s (SuspendReason.dialogueComplete n) =
      some { s with queue := q, runner := { s.runner with state := DialogueRunnerState.idle } } := by
  simp only [runnerReasonStep, hq, assetGet, hnr]
  simp

/-- Claim C5: on a `DialogueComplete` suspend, an empty queue sends the
runner to Idle; when the queue's next entry has both assets already loaded,
the runner rebinds directly to Running for that entry in the same single
step, with no intervening Idle state. -/
theorem c5_completion_chaining (s : SysState) (e : DialogueRunningCurrentEntry)
    (lastNode : String) (rest : List SuspendReason)
    (hst : s.runner.state = DialogueRunnerState.running e)
    (hw : s.runner.vm.executionWaiting = false)
    (hp : s.runner.vm.pending = SuspendReason.dialogueComplete lastNode :: rest) :
    (s.queue = [] → ∃ s', update_runner s = some s' ∧
      s'.runner.state = DialogueRunnerState.idle) ∧
    (∀ e0 q prog tbl, s.queue = e0 :: q → s.programs e0.program = some prog →
      s.tables e0.table = some tbl →
      ∃ s', update_runner s = some s' ∧
        s'.runner.state = DialogueRunnerState.running DialogueRunningCurrentEntry.null ∧
        s'.runner.vm.program = prog.prog ∧ s'.runner.table = tbl.lines ∧ s'.queue = q) := by
  have hadv := update_runner_advance s e (SuspendReason.dialogueComplete lastNode) rest hst hw hp
  constructor
  · intro hq
    have hq1 : ({ s with runner := { s.runner with vm := { s.runner.vm with pending := rest } } }
        : SysState).queue = [] := hq
    exact ⟨_, hadv.trans (runnerReasonStep_complete_empty _ lastNode hq1), rfl⟩
  · intro e0 q prog tbl hq hprog htbl
    have hq1 : ({ s with runner := { s.runner with vm := { s.runner.vm with pending := rest } } }
        : SysState).queue = e0 :: q := hq
    have hprog1 : ({ s with runner := { s.runner with vm := { s.runner.vm with pending := rest } } }
        : SysState).programs e0.program = some prog := hprog
    have htbl1 : ({ s with runner := { s.runner with vm := { s.runner.vm with pending := rest } } }
        : SysState).tables e0.table = some tbl := htbl
    exact ⟨_, hadv.trans (runnerReasonStep_complete_ready _ lastNode e0 q prog tbl hq1 hprog1 htbl1),
      setup_state .., setup_program .., setup_table .., rfl⟩

/-- Claim C5 witness: completion with an empty queue reaches Idle, and
completion with a ready head entry rebinds directly to Running. -/
theorem c5_completion_chaining_witness :
    (∃ s', update_runner (runningState [] [SuspendReason.dialogueComplete "End"]) = some s' ∧
      s'.runner.state = DialogueRunnerState.idle) ∧
    (∃ s', update_runner
        { runningState [] [SuspendReason.dialogueComplete "End"] with
          queue := [sampleEntry],
          programs := fun k => if k = 1 then some sampleProgram else none,
          tables := fun k => if k = 1 then some sampleTable else none } = some s' ∧
      s'.runner.state = DialogueRunnerState.running DialogueRunningCurrentEntry.null ∧
      s'.runner.vm.program = sampleProgram.prog ∧ s'.runner.table = sampleTable.lines ∧
      s'.queue = []) := by
  constructor
  · exact (c5_completion_chaining (runningState [] [SuspendReason.dialogueComplete "End"])
      DialogueRunningCurrentEntry.null "End" [] rfl rfl rfl).1 rfl
  · exact (c5_completion_chaining
      { runningState [] [SuspendReason.dialogueComplete "End"] with
        queue := [sampleEntry],
        programs := fun k => if k = 1 then some sampleProgram else none,
        tables := fun k => if k = 1 then some sampleTable else none }
      DialogueRunningCurrentEntry.null "End" [] rfl rfl rfl).2 sampleEntry [] sampleProgram
      sampleTable rfl rfl rfl

theorem runnerReasonStep_line_miss (s : SysState) (l : YarnLine)
    (hfind : s.runner.table.find? (fun li => li.id == l.id) = none) :
    runnerReasonStep s (SuspendReason.line l) = none := by
  simp only [runnerReasonStep, hfind, Option.map_none']

theorem runnerReasonStep_options (s : SysState) (opts : List YarnOption) :
    runnerReasonStep s (SuspendReason.options opts) =
      some { s with events := s.events + 1,
                    runner := { s.runner with
                      state := DialogueRunnerState.running
                        (DialogueRunningCurrentEntry.options (optionLineTexts s.runner.table opts)) } } :=
  rfl

theorem runnerReasonStep_nodeChange (s : SysState) (a b : String) :
    runnerReasonStep s (SuspendReason.nodeChange a b) =
      some { s with runner := { s.runner with
        state := DialogueRunnerState.running DialogueRunningCurrentEntry.null } } :=
  rfl

theorem runnerReasonStep_command (s : SysState) (txt : String) :
    runnerReasonStep s (SuspendReason.command txt) =
      some { s with
        dispatches := s.dispatches ++
          (match commandSplit txt.data with
           | [] => []
           | n :: args => [(String.mk n, args.map (fun a => String.mk a))]),
        runner := { s.runner with
          state := DialogueRunnerState.running DialogueRunningCurrentEntry.null } } := by
  simp only [runnerReasonStep]
  cases hsplit : commandSplit txt.data with
  | nil => simp [hsplit]
  | cons n args => simp [hsplit]

theorem optionLineTexts_eq_filterMap (table : List LineInfo) (opts : List YarnOption) :
    optionLineTexts table opts = opts.filterMap (fun opt =>
      (table.find? (fun li => li.id == opt.line.id)).map (fun li => li.text)) := by
  have key : ∀ (os : List YarnOption) (acc : List String),
      os.foldl (fun acc opt =>
        match (table.find? (fun li => li.id == opt.line.id)).map (fun li => li.text) with
        | some t => acc ++ [t]
        | none => acc) acc
      = acc ++ os.filterMap (fun opt =>
          (table.find? (fun li => li.id == opt.line.id)).map (fun li => li.text)) := by
    intro os
    induction os with
    | nil => intro acc; simp
    | cons o os ih =>
      intro acc
      cases hf : (table.find? (fun li => li.id == o.line.id)).map (fun li => li.text) with
      | none => simp [List.foldl_cons, hf, List.filterMap_cons, ih]
      | some t => simp [List.foldl_cons, hf, List.filterMap_cons, ih]
  simpa [optionLineTexts] using key opts []

/-- Claim C3 counterexample: an Options suspend containing an option whose
line id is absent from the bound table is not fatal; the missing option is
silently dropped from the presented choice list and the session continues. -/
theorem c3_counterexample :
    (update_runner (runningState [{ id := "a", text := "A" }]
        [SuspendReason.options [{ line := { id := "missing", substitutions := [] } },
                                { line := { id := "a", substitutions := [] } }]])).map
        (fun t => t.runner.state)
      = some (DialogueRunnerState.running (DialogueRunningCurrentEntry.options ["A"])) := by
  decide

/-- Claim C3 amended: a Line suspend whose line id misses the bound table
aborts the step with the panic (modelled as an error result, in the source a
process-aborting `panic!`, not a structured in-session error); an Options
suspend resolves only the options whose line ids are present, silently
dropping the missing ones, and continues with a change notification and no
error. -/
theorem c3_missing_line_handling (s : SysState) (e : DialogueRunningCurrentEntry)
    (rest : List SuspendReason)
    (hst : s.runner.state = DialogueRunnerState.running e)
    (hw : s.runner.vm.executionWaiting = false) :
    (∀ l, s.runner.vm.pending = SuspendReason.line l :: rest →
      s.runner.table.find? (fun li => li.id == l.id) = none →
      update_runner s = none) ∧
    (∀ opts, s.runner.vm.pending = SuspendReason.options opts :: rest →
      ∃ s', update_runner s = some s' ∧
        s'.runner.state = DialogueRunnerState.running
          (DialogueRunningCurrentEntry.options (opts.filterMap (fun opt =>
            (s.runner.table.find? (fun li => li.id == opt.line.id)).map (fun li => li.text)))) ∧
        s'.events = s.events + 1) := by
  constructor
  · intro l hp hfind
    have hadv := update_runner_advance s e (SuspendReason.line l) rest hst hw hp
    rw [hadv]
    exact runnerReasonStep_line_miss _ l hfind
  · intro opts hp
    have hadv := update_runner_advance s e (SuspendReason.options opts) rest hst hw hp
    refine ⟨_, hadv.trans (runnerReasonStep_options _ opts), ?_, rfl⟩
    rw [← optionLineTexts_eq_filterMap]

/-- Claim C3 amended witness: a missing line id panics the step; a missing
option id is dropped while the present one survives. -/
theorem c3_missing_line_handling_witness :
    update_runner (runningState [] [SuspendReason.line { id := "missing", substitutions := [] }])
      = none ∧
    (∃ s', update_runner (runningState [{ id := "a", text := "A" }]
        [SuspendReason.options [{ line := { id := "nope", substitutions := [] } },
                                { line := { id := "a", substitutions := [] } }]]) = some s' ∧
      s'.runner.state = DialogueRunnerState.running (DialogueRunningCurrentEntry.options ["A"])) := by
  constructor
  · exact (c3_missing_line_handling
      (runningState [] [SuspendReason.line { id := "missing", substitutions := [] }])
      DialogueRunningCurrentEntry.null [] rfl rfl).1
      { id := "missing", substitutions := [] } rfl rfl
  · obtain ⟨s', h1, h2, -⟩ := (c3_missing_line_handling
      (runningState [{ id := "a", text := "A" }]
        [SuspendReason.options [{ line := { id := "nope", substitutions := [] } },
                                { line := { id := "a", substitutions := [] } }]])
      DialogueRunningCurrentEntry.null [] rfl rfl).2
      [{ line := { id := "nope", substitutions := [] } },
       { line := { id := "a", substitutions := [] } }] rfl
    refine ⟨s', h1, ?_⟩
    rw [h2]
    decide

/-- Claim C4 counterexample: a Command suspend processed while the runner is
in `Running(DeliveringLine "hello")` does not leave the substate unchanged;
it resets it to `Null`. -/
theorem c4_counterexample :
    (update_runner (runningStateAt (DialogueRunningCurrentEntry.text "hello") []
        [SuspendReason.command "foo bar"])).map (fun t => t.runner.state)
      = some (DialogueRunnerState.running DialogueRunningCurrentEntry.null) ∧
    DialogueRunnerState.running DialogueRunningCurrentEntry.null ≠
      DialogueRunnerState.running (DialogueRunningCurrentEntry.text "hello") := by
  constructor
  · decide
  · decide

/-- Claim C4 amended: processing a Command or NodeChange suspend keeps the
runner Running but resets the substate to Null, discarding any
DeliveringLine or PresentingChoices payload; the Command branch splits the
command text on single spaces and queues one dispatch of name and arguments,
the NodeChange branch mutates nothing else. -/
theorem c4_command_nodechange (s : SysState) (e : DialogueRunningCurrentEntry)
    (rest : List SuspendReason)
    (hst : s.runner.state = DialogueRunnerState.running e)
    (hw : s.runner.vm.executionWaiting = false) :
    (∀ txt, s.runner.vm.pending = SuspendReason.command txt :: rest →
      ∃ s', update_runner s = some s' ∧
        s'.runner.state = DialogueRunnerState.running DialogueRunningCurrentEntry.null ∧
        s'.dispatches = s.dispatches ++
          (match commandSplit txt.data with
           | [] => []
           | n :: args => [(String.mk n, args.map (fun a => String.mk a))]) ∧
        s'.queue = s.queue ∧ s'.events = s.events ∧ s'.programs = s.programs ∧
        s'.tables = s.tables) ∧
    (∀ a b, s.runner.vm.pending = SuspendReason.nodeChange a b :: rest →
      ∃ s', update_runner s = some s' ∧
        s'.runner.state = DialogueRunnerState.running DialogueRunningCurrentEntry.null ∧
        s'.dispatches = s.dispatches ∧ s'.queue = s.queue ∧ s'.events = s.events ∧
        s'.programs = s.programs ∧ s'.tables = s.tables) := by
  constructor
  · intro txt hp
    have hadv := update_runner_advance s e (SuspendReason.command txt) rest hst hw hp
    exact ⟨_, hadv.trans (runnerReasonStep_command _ txt), rfl, rfl, rfl, rfl, rfl, rfl⟩
  · intro a b hp
    have hadv := update_runner_advance s e (SuspendReason.nodeChange a b) rest hst hw hp
    exact ⟨_, hadv.trans (runnerReasonStep_nodeChange _ a b), rfl, rfl, rfl, rfl, rfl, rfl⟩

/-- Claim C4 amended witness: a concrete command is split and dispatched with
the substate reset to Null; a concrete node change dispatches nothing. -/
theorem c4_command_nodechange_witness :
    (∃ s', update_runner (runningStateAt (DialogueRunningCurrentEntry.text "hello") []
        [SuspendReason.command "give gold 10"]) = some s' ∧
      s'.runner.state = DialogueRunnerState.running DialogueRunningCurrentEntry.null ∧
      s'.dispatches = [("give", ["gold", "10"])]) ∧
    (∃ s', update_runner (runningStateAt (DialogueRunningCurrentEntry.options ["x"]) []
        [SuspendReason.nodeChange "a" "b"]) = some s' ∧
      s'.runner.state = DialogueRunnerState.running DialogueRunningCurrentEntry.null ∧
      s'.dispatches = []) := by
  constructor
  · obtain ⟨s', h1, h2, h3, -⟩ := (c4_command_nodechange
      (runningStateAt (DialogueRunningCurrentEntry.text "hello") []
        [SuspendReason.command "give gold 10"])
      (DialogueRunningCurrentEntry.text "hello") [] rfl rfl).1 "give gold 10" rfl
    refine ⟨s', h1, h2, ?_⟩
    rw [h3]
    decide
  · obtain ⟨s', h1, h2, h3, -⟩ := (c4_command_nodechange
      (runningStateAt (DialogueRunningCurrentEntry.options ["x"]) []
        [SuspendReason.nodeChange "a" "b"])
      (DialogueRunningCurrentEntry.options ["x"]) [] rfl rfl).2 "a" "b" rfl
    exact ⟨s', h1, h2, h3⟩

/-- Claim C1 code evaluation: with the runner Running, the next suspend
DialogueComplete, and the queue holding one still-pending entry whose two
assets are not loaded, the runner's DialogueComplete handling pops and
discards that entry — the queue empties and the runner goes Idle — although
the admission gate never confirmed the assets Loaded. -/
theorem c1_complete_discards_pending_entry :
    ({ runningState [] [SuspendReason.dialogueComplete "End"] with queue := [sampleEntry] }
      : SysState).programs sampleEntry.program = none ∧
    ({ runningState [] [SuspendReason.dialogueComplete "End"] with queue := [sampleEntry] }
      : SysState).tables sampleEntry.table = none ∧
    (update_runner { runningState [] [SuspendReason.dialogueComplete "End"] with
        queue := [sampleEntry] }).map (fun t => (t.queue, t.runner.state))
      = some ([], DialogueRunnerState.idle) := by
  exact ⟨rfl, rfl, by decide⟩

/-- Claim C2 counterexample: the admission gate (`check_queue`) is registered
in PostUpdate and the runner (`update_runner`) in PreUpdate, so the gate
does not execute before the runner within a tick. -/
theorem c2_counterexample :
    ¬ stageIndex checkQueueStage < stageIndex updateRunnerStage := by
  decide

/-- Claim C2 amended: within each tick the runner step (PreUpdate) executes
before the admission-gate step (PostUpdate); in a tick that starts with an
idle runner the whole tick reduces to the gate alone, so a request promoted
by the gate is first advanced no earlier than the following tick. -/
theorem c2_stage_order (hold : Option Unit) (s : SysState)
    (hidle : s.runner.state = DialogueRunnerState.idle) :
    stageIndex updateRunnerStage < stageIndex checkQueueStage ∧
    bevyTick hold s = some (check_queue s) := by
  refine ⟨by decide, ?_⟩
  unfold bevyTick
  cases hold with
  | some u => rfl
  | none =>
    have h : update_runner_system none s = some s := update_runner_of_idle s hidle
    rw [h]
    rfl

/-- Claim C2 amended witness: the stage order and an idle-start tick at a
concrete state. -/
theorem c2_stage_order_witness :
    baseState.runner.state = DialogueRunnerState.idle ∧
    stageIndex updateRunnerStage < stageIndex checkQueueStage ∧
    bevyTick none baseState = some (check_queue baseState) :=
  ⟨rfl, c2_stage_order none baseState rfl⟩

theorem check_queue_unready (s : SysState) (e : DialogueQueueEntry)
    (tl : List DialogueQueueEntry) (hq : s.queue = e :: tl)
    (hnr : ((s.programs e.program).isSome && (s.tables e.table).isSome) = false) :
    check_queue s = s := by
  unfold check_queue
  cases hbeq : runnerStateBeq s.runner.state DialogueRunnerState.idle with
  | false => simp [hbeq]
  | true => simp [hbeq, hq, assetGet, hnr]

/-- Claim C6: the admission gate inspects only the head entry; for any
number of gate ticks under arbitrarily evolving asset collections, while the
head entry's two assets are never both loaded the queue stays exactly as it
was and the runner is untouched — so an entry behind the head is never
promoted first. -/
theorem c6_slow_head_blocking :
    ∀ (envs : List (AssetMap YarnProgram × AssetMap YarnStringTable)) (s : SysState)
      (e : DialogueQueueEntry) (tl : List DialogueQueueEntry),
      s.queue = e :: tl →
      (∀ env ∈ envs, ((env.1 e.program).isSome && (env.2 e.table).isSome) = false) →
      (gateRun s envs).queue = e :: tl ∧ (gateRun s envs).runner = s.runner := by
  intro envs
  induction envs with
  | nil => intro s e tl hq _; exact ⟨hq, rfl⟩
  | cons env rest ih =>
    intro s e tl hq hnr
    have h1 : ({ s with programs := env.1, tables := env.2 } : SysState).queue = e :: tl := hq
    have hnr1 : ((({ s with programs := env.1, tables := env.2 } : SysState).programs
        e.program).isSome &&
        (({ s with programs := env.1, tables := env.2 } : SysState).tables e.table).isSome)
        = false := hnr env (by simp)
    have hcq := check_queue_unready _ e tl h1 hnr1
    show (gateRun (check_queue { s with programs := env.1, tables := env.2 }) rest).queue = e :: tl
      ∧ (gateRun (check_queue { s with programs := env.1, tables := env.2 }) rest).runner
        = s.runner
    rw [hcq]
    exact ih _ e tl h1 (fun env' h => hnr env' (by simp [h]))

/-- Claim C6 witness: queue with head A (handles 1, never loaded) and B
(handles 2, loaded the whole time); one gate tick changes nothing. -/
theorem c6_slow_head_blocking_witness :
    (∀ env ∈ [((fun k => if k = 2 then some sampleProgram else none : AssetMap YarnProgram),
               (fun k => if k = 2 then some sampleTable else none : AssetMap YarnStringTable))],
      ((env.1 sampleEntry.program).isSome && (env.2 sampleEntry.table).isSome) = false) ∧
    (gateRun { baseState with queue := [sampleEntry, entryB] }
        [((fun k => if k = 2 then some sampleProgram else none),
          (fun k => if k = 2 then some sampleTable else none))]).queue
      = [sampleEntry, entryB] := by
  refine ⟨?_, ?_⟩
  · intro env henv
    simp only [List.mem_singleton] at henv
    rw [henv]
    decide
  · exact (c6_slow_head_blocking
      [((fun k => if k = 2 then some sampleProgram else none),
        (fun k => if k = 2 then some sampleTable else none))]
      { baseState with queue := [sampleEntry, entryB] } sampleEntry [entryB] rfl
      (by
        intro env henv
        simp only [List.mem_singleton] at henv
        rw [henv]
        decide)).1

theorem assetRemove_preserves_none {A : Type} (m : AssetMap A) (k k' : Nat)
    (hk : m k' = none) : (assetRemove m k).2 k' = none := by
  unfold assetRemove
  by_cases h : k' = k <;> simp [h, hk]

theorem check_queue_not_idle (s : SysState)
    (h : runnerStateBeq s.runner.state DialogueRunnerState.idle = false) :
    check_queue s = s := by
  unfold check_queue
  simp [h]

theorem check_queue_empty (s : SysState) (h : s.queue = []) : check_queue s = s := by
  unfold check_queue
  simp [h]

theorem check_queue_promotes (s : SysState) (e : DialogueQueueEntry)
    (rest : List DialogueQueueEntry) (prog : YarnProgram) (tbl : YarnStringTable)
    (hidle : s.runner.state = DialogueRunnerState.idle)
    (hq : s.queue = e :: rest)
    (hprog : s.programs e.program = some prog) (htbl : s.tables e.table = some tbl) :
    check_queue s = { s with queue := rest,
                             programs := (assetRemove s.programs e.program).2,
                             tables := (assetRemove s.tables e.table).2,
                             runner := s.runner.setup prog tbl e.start_node } := by
  unfold check_queue
  rw [hidle]
  simp [hq, runnerStateBeq, assetGet, assetRemove, hprog, htbl]

theorem runnerStateBeq_running_false (s : SysState) (e2 : DialogueRunningCurrentEntry)
    (h : s.runner.state = DialogueRunnerState.running e2) :
    runnerStateBeq s.runner.state DialogueRunnerState.idle = false := by
  rw [h]
  rfl

theorem check_queue_programs_none (s : SysState) (k : Nat) (hk : s.programs k = none) :
    (check_queue s).programs k = none := by
  cases hbeq : runnerStateBeq s.runner.state DialogueRunnerState.idle with
  | false => rw [check_queue_not_idle s hbeq]; exact hk
  | true =>
    cases hq : s.queue with
    | nil => rw [check_queue_empty s hq]; exact hk
    | cons e rest =>
      cases hready : (s.programs e.program).isSome && (s.tables e.table).isSome with
      | false => rw [check_queue_unready s e rest hq hready]; exact hk
      | true =>
        rw [Bool.and_eq_true] at hready
        obtain ⟨hp, ht⟩ := hready
        obtain ⟨prog, hprog⟩ := Option.isSome_iff_exists.mp hp
        obtain ⟨tbl, htbl⟩ := Option.isSome_iff_exists.mp ht
        have hidle : s.runner.state = DialogueRunnerState.idle := by
          cases hst : s.runner.state with
          | idle => rfl
          | running e2 => rw [runnerStateBeq_running_false s e2 hst] at hbeq; simp at hbeq
        rw [check_queue_promotes s e rest prog tbl hidle hq hprog htbl]
        exact assetRemove_preserves_none s.programs e.program k hk

theorem check_queue_tables_none (s : SysState) (k : Nat) (hk : s.tables k = none) :
    (check_queue s).tables k = none := by
  cases hbeq : runnerStateBeq s.runner.state DialogueRunnerState.idle with
  | false => rw [check_queue_not_idle s hbeq]; exact hk
  | true =>
    cases hq : s.queue with
    | nil => rw [check_queue_empty s hq]; exact hk
    | cons e rest =>
      cases hready : (s.programs e.program).isSome && (s.tables e.table).isSome with
      | false => rw [check_queue_unready s e rest hq hready]; exact hk
      | true =>
        rw [Bool.and_eq_true] at hready
        obtain ⟨hp, ht⟩ := hready
        obtain ⟨prog, hprog⟩ := Option.isSome_iff_exists.mp hp
        obtain ⟨tbl, htbl⟩ := Option.isSome_iff_exists.mp ht
        have hidle : s.runner.state = DialogueRunnerState.idle := by
          cases hst : s.runner.state with
          | idle => rfl
          | running e2 => rw [runnerStateBeq_running_false s e2 hst] at hbeq; simp at hbeq
        rw [check_queue_promotes s e rest prog tbl hidle hq hprog htbl]
        exact assetRemove_preserves_none s.tables e.table k hk

theorem runnerReasonStep_line_hit (s : SysState) (l : YarnLine) (newText : String)
    (out : String)
    (hfind : (s.runner.table.find? (fun li => li.id == l.id)).map (fun li => li.text)
      = some newText)
    (hsub : substituteS newText l.substitutions = some out) :
    runnerReasonStep s (SuspendReason.line l) =
      some { s with events := s.events + 1,
                    runner := { s.runner with
                      state := DialogueRunnerState.running (DialogueRunningCurrentEntry.text out) } } := by
  simp only [runnerReasonStep, hfind, hsub]

theorem runnerReasonStep_line_subfail (s : SysState) (l : YarnLine) (newText : String)
    (hfind : (s.runner.table.find? (fun li => li.id == l.id)).map (fun li => li.text)
      = some newText)
    (hsub : substituteS newText l.substitutions = none) :
    runnerReasonStep s (SuspendReason.line l) = none := by
  simp only [runnerReasonStep, hfind, hsub]

theorem runnerReasonStep_assets_none (s : SysState) (r : SuspendReason) (s' : SysState)
    (k k' : Nat) (h : runnerReasonStep s r = some s')
    (hk : s.programs k = none) (hk' : s.tables k' = none) :
    s'.programs k = none ∧ s'.tables k' = none := by
  cases r with
  | line l =>
    cases hf : (s.runner.table.find? (fun li => li.id == l.id)).map (fun li => li.text) with
    | none =>
      rw [Option.map_eq_none'] at hf
      rw [runnerReasonStep_line_miss s l hf] at h
      exact absurd h (by simp)
    | some newText =>
      cases hsub : substituteS newText l.substitutions with
      | none =>
        rw [runnerReasonStep_line_subfail s l newText hf hsub] at h
        exact absurd h (by simp)
      | some out =>
        rw [runnerReasonStep_line_hit s l newText out hf hsub] at h
        injection h with h'
        rw [← h']
        exact ⟨hk, hk'⟩
  | options opts =>
    rw [runnerReasonStep_options s opts] at h
    injection h with h'
    rw [← h']
    exact ⟨hk, hk'⟩
  | command txt =>
    rw [runnerReasonStep_command s txt] at h
    injection h with h'
    rw [← h']
    exact ⟨hk, hk'⟩
  | nodeChange a b =>
    rw [runnerReasonStep_nodeChange s a b] at h
    injection h with h'
    rw [← h']
    exact ⟨hk, hk'⟩
  | dialogueComplete n =>
    cases hq : s.queue with
    | nil =>
      rw [runnerReasonStep_complete_empty s n hq] at h
      injection h with h'
      rw [← h']
      exact ⟨hk, hk'⟩
    | cons e rest =>
      cases hready : (s.programs e.program).isSome && (s.tables e.table).isSome with
      | false =>
        rw [runnerReasonStep_complete_unready s n e rest hq hready] at h
        injection h with h'
        rw [← h']
        exact ⟨hk, hk'⟩
      | true =>
        rw [Bool.and_eq_true] at hready
        obtain ⟨hp, ht⟩ := hready
        obtain ⟨prog, hprog⟩ := Option.isSome_iff_exists.mp hp
        obtain ⟨tbl, htbl⟩ := Option.isSome_iff_exists.mp ht
        rw [runnerReasonStep_complete_ready s n e rest prog tbl hq hprog htbl] at h
        injection h with h'
        rw [← h']
        exact ⟨assetRemove_preserves_none s.programs e.program k hk,
               assetRemove_preserves_none s.tables e.table k' hk'⟩

theorem update_runner_assets_none (s s' : SysState) (k k' : Nat)
    (h : update_runner s = some s')
    (hk : s.programs k = none) (hk' : s.tables k' = none) :
    s'.programs k = none ∧ s'.tables k' = none := by
  cases hst : s.runner.state with
  | idle =>
    rw [update_runner_of_idle s hst] at h
    injection h with h'
    rw [← h']
    exact ⟨hk, hk'⟩
  | running e =>
    cases hw : s.runner.vm.executionWaiting with
    | true =>
      rw [update_runner_of_waiting s e hst hw] at h
      injection h with h'
      rw [← h']
      exact ⟨hk, hk'⟩
    | false =>
      cases hp : s.runner.vm.pending with
      | nil =>
        have hadv : update_runner s =
            runnerReasonStep s (SuspendReason.dialogueComplete s.runner.vm.currentNode) := by
          unfold update_runner
          rw [hst, hw]
          unfold continueDialogue
          rw [hp]
          rfl
        rw [hadv] at h
        exact runnerReasonStep_assets_none s _ s' k k' h hk hk'
      | cons r rest =>
        have hadv := update_runner_advance s e r rest hst hw hp
        rw [hadv] at h
        exact runnerReasonStep_assets_none _ r s' k k' h hk hk'

theorem sysStep_assets_none (b : Bool) (s s' : SysState) (k k' : Nat)
    (h : sysStep b s = some s')
    (hk : s.programs k = none) (hk' : s.tables k' = none) :
    s'.programs k = none ∧ s'.tables k' = none := by
  cases b with
  | true =>
    have h' : check_queue s = s' := by
      simpa [sysStep] using h
    rw [← h']
    exact ⟨check_queue_programs_none s k hk, check_queue_tables_none s k' hk'⟩
  | false =>
    exact update_runner_assets_none s s' k k' (by simpa [sysStep] using h) hk hk'

theorem runSteps_assets_none : ∀ (bs : List Bool) (s s' : SysState) (k k' : Nat),
    runSteps bs s = some s' → s.programs k = none → s.tables k' = none →
    s'.programs k = none ∧ s'.tables k' = none := by
  intro bs
  induction bs with
  | nil =>
    intro s s' k k' h hk hk'
    injection h with h'
    rw [← h']
    exact ⟨hk, hk'⟩
  | cons b bs ih =>
    intro s s' k k' h hk hk'
    simp only [runSteps] at h
    cases hstep : sysStep b s with
    | none => rw [hstep] at h; simp at h
    | some s1 =>
      rw [hstep] at h
      simp only [Option.some_bind] at h
      obtain ⟨h1, h2⟩ := sysStep_assets_none b s s1 k k' hstep hk hk'
      exact ih s1 s' k k' h h1 h2

/-- Claim C10: promoting a queue entry — at admission or when chaining on
DialogueComplete — removes the program and table assets from the global
collections rather than copying them: the bound program is the removed asset
itself, afterwards the two handles resolve to nothing, and under any further
interleaving of the gate and runner systems the handles never resolve again,
so a later entry holding the same handles never observes both loaded. -/
theorem c10_promotion_removes_assets (s : SysState) (e : DialogueQueueEntry)
    (rest : List DialogueQueueEntry) (prog : YarnProgram) (tbl : YarnStringTable) :
    (s.runner.state = DialogueRunnerState.idle → s.queue = e :: rest →
      s.programs e.program = some prog → s.tables e.table = some tbl →
      (check_queue s).programs e.program = none ∧ (check_queue s).tables e.table = none ∧
      (check_queue s).runner.vm.program = prog.prog ∧
      ∀ bs s2, runSteps bs (check_queue s) = some s2 →
        s2.programs e.program = none ∧ s2.tables e.table = none) ∧
    (∀ e0 lastNode rem, s.runner.state = DialogueRunnerState.running e0 →
      s.runner.vm.executionWaiting = false →
      s.runner.vm.pending = SuspendReason.dialogueComplete lastNode :: rem →
      s.queue = e :: rest → s.programs e.program = some prog → s.tables e.table = some tbl →
      ∀ s', update_runner s = some s' →
        s'.programs e.program = none ∧ s'.tables e.table = none ∧
        s'.runner.vm.program = prog.prog ∧
        ∀ bs s2, runSteps bs s' = some s2 →
          s2.programs e.program = none ∧ s2.tables e.table = none) := by
  constructor
  · intro hidle hq hprog htbl
    rw [check_queue_promotes s e rest prog tbl hidle hq hprog htbl]
    have h1 : (assetRemove s.programs e.program).2 e.program = none := by
      simp [assetRemove]
    have h2 : (assetRemove s.tables e.table).2 e.table = none := by
      simp [assetRemove]
    refine ⟨h1, h2, setup_program .., ?_⟩
    intro bs s2 hrun
    exact runSteps_assets_none bs _ s2 e.program e.table hrun h1 h2
  · intro e0 lastNode rem hst hw hp hq hprog htbl s' hs'
    have hadv := update_runner_advance s e0 (SuspendReason.dialogueComplete lastNode) rem hst hw hp
    have hq1 : ({ s with runner := { s.runner with vm := { s.runner.vm with pending := rem } } }
        : SysState).queue = e :: rest := hq
    have hprog1 : ({ s with runner := { s.runner with vm := { s.runner.vm with pending := rem } } }
        : SysState).programs e.program = some prog := hprog
    have htbl1 : ({ s with runner := { s.runner with vm := { s.runner.vm with pending := rem } } }
        : SysState).tables e.table = some tbl := htbl
    have heval := hadv.trans
      (runnerReasonStep_complete_ready _ lastNode e rest prog tbl hq1 hprog1 htbl1)
    rw [heval] at hs'
    injection hs' with h'
    rw [← h']
    have h1 : (assetRemove s.programs e.program).2 e.program = none := by
      simp [assetRemove]
    have h2 : (assetRemove s.tables e.table).2 e.table = none := by
      simp [assetRemove]
    refine ⟨h1, h2, setup_program .., ?_⟩
    intro bs s2 hrun
    exact runSteps_assets_none bs _ s2 e.program e.table hrun h1 h2

/-- Claim C10 witness: gate promotion at a concrete ready state removes both
assets, binds the removed program, and a later runner step still finds both
handles unresolvable. -/
theorem c10_promotion_removes_assets_witness :
    (check_queue readyIdleState).programs sampleEntry.program = none ∧
    (check_queue readyIdleState).tables sampleEntry.table = none ∧
    (check_queue readyIdleState).runner.vm.program = sampleProgram.prog ∧
    (∃ s2, runSteps [false, true] (check_queue readyIdleState) = some s2 ∧
      s2.programs sampleEntry.program = none ∧ s2.tables sampleEntry.table = none) := by
  obtain ⟨h1, h2, h3, h4⟩ := (c10_promotion_removes_assets readyIdleState sampleEntry []
    sampleProgram sampleTable).1 rfl rfl (by decide) (by decide)
  obtain ⟨s2, hs2⟩ : ∃ s2, runSteps [false, true] (check_queue readyIdleState) = some s2 :=
    ⟨_, rfl⟩
  exact ⟨h1, h2, h3, s2, hs2, h4 [false, true] s2 hs2⟩
